import Mathlib

/-!
Shallow embedding of the result-grid controller of the image-search frontend
(`ImageGrid.vue`, the revision with per-item removal, placeholder backfill and
client-side ZIP export).  Pure state-passing models of the component's script:

* `fetchDispatch` / `fetchResolve`   — the `fetchImages` page-level fetch,
  split at its `await` suspension point;
* `removalSettle` / `removalResolve` — `removeImageAt`, split at the
  animation delay / replacement-fetch suspension points;
* `nextPageEmit` / `prevPageEmit`    — the pagination handlers;
* `cropCall`, `transcodeSlot`, `downloadZip` — the export pipeline
  (`loadImage`, centre-crop `drawImage`, `canvas.toBlob`, JSZip naming).

Browser capabilities (image decode, canvas encode) are external collaborators
and enter as an oracle record `BrowserEnv`.  JavaScript array `splice` is
modelled exactly (`jsSplice`), including its clamping behaviour.
-/

namespace ImageSearch

/-- One search hit as delivered by `/search`: `{id, download_url, alt_description?}`. -/
structure ResultItem where
  id : Nat
  download_url : String
  alt_description : Option String
deriving DecidableEq, Repr

/-- One display slot of the grid: a live item, or the transient
`{ __placeholder: true }` entry that `removeImageAt` splices in. -/
inductive Slot where
  | item (it : ResultItem) : Slot
  | placeholder : Slot
deriving DecidableEq, Repr

/-- A slot is live when it holds a real item (not the placeholder spinner). -/
def Slot.isLive : Slot → Bool
  | .item _ => true
  | .placeholder => false

/-- The component's reactive state: `searchQuery`/`page` props, `images`,
`total`, `error`, `loading` refs and the module-level `nextFetchPage` cursor. -/
structure Ctrl where
  query : String
  page : Nat
  images : List Slot
  total : Nat
  errorMsg : Option String
  loading : Bool
  nextFetchPage : Nat
deriving DecidableEq, Repr

/-- Page size of a full-page fetch (`const perPage = 50`). -/
def perPage : Nat := 50

/-- Parameters of a `/search` request captured at dispatch time
(`query=…&page=…&per_page=…`). -/
structure PendingFetch where
  fq : String
  fp : Nat
  fper : Nat
deriving DecidableEq, Repr

/-- Outcome of a page-level `/search` round trip: `res.ok` with a parsed body
(`results`, `total`, absent fields defaulted as `data.results || []`,
`data.total || 0`), a non-ok HTTP status, or an `error` field in the body. -/
inductive FetchOutcome where
  | ok (results : List ResultItem) (tot : Nat) : FetchOutcome
  | httpError (status : Nat) : FetchOutcome
  | providerError (msg : String) : FetchOutcome
deriving DecidableEq, Repr

/-- Entry of `fetchImages`, up to the `await fetch(url)` suspension: an empty
`searchQuery` clears `images` and returns without any network request;
otherwise `loading`/`error` are set and a request with the current props and
`perPage` is issued. -/
def fetchDispatch (c : Ctrl) : Ctrl × Option PendingFetch :=
  if c.query = "" then
    ({ c with images := [] }, none)
  else
    ({ c with loading := true, errorMsg := none },
     some ⟨c.query, c.page, perPage⟩)

/-- Error message text: `err.message || 'Ошибка загрузки'`. -/
def loadErrorText (m : String) : String :=
  if m = "" then "Ошибка загрузки" else m

/-- Resumption of `fetchImages` after the fetch settles.  On success the
results replace `images` wholesale, `total` is taken from the body and
`nextFetchPage` is reset to the CURRENT `props.page + 1`; on an HTTP or
provider error the message is surfaced and `images` cleared.  The captured
parameters `f` are never consulted — the code has no staleness check. -/
def fetchResolve (c : Ctrl) (f : PendingFetch) (out : FetchOutcome) : Ctrl :=
  match out with
  | .ok results tot =>
      { c with images := results.map Slot.item
               total := tot
               nextFetchPage := c.page + 1
               loading := false }
  | .httpError status =>
      { c with errorMsg := some (loadErrorText ("HTTP " ++ toString status))
               images := []
               loading := false }
  | .providerError msg =>
      { c with errorMsg := some (loadErrorText msg)
               images := []
               loading := false }

/-- The `watch` on `[props.searchQuery, props.page]`: a parameter change
updates the props and re-runs `fetchImages`. -/
def paramsChange (c : Ctrl) (q : String) (p : Nat) : Ctrl × Option PendingFetch :=
  fetchDispatch { c with query := q, page := p }

/-- The `nextPage` handler: emits `update:page` with `page + 1` only when
`props.page < 10`. -/
def nextPageEmit (c : Ctrl) : Option Nat :=
  if c.page < 10 then some (c.page + 1) else none

/-- The `prevPage` handler: emits `update:page` with `page - 1` only when
`props.page > 1`. -/
def prevPageEmit (c : Ctrl) : Option Nat :=
  if 1 < c.page then some (c.page - 1) else none

/-- The forward button's `:disabled="images.length < perPage"` binding. -/
def forwardDisabled (c : Ctrl) : Bool :=
  c.images.length < perPage

/-- JavaScript `Array.prototype.splice(start, deleteCount, ...items)` for a
non-negative `start`: the start position is clamped to the length, at most
`deleteCount` elements from there are removed, and `items` are inserted in
their place. -/
def jsSplice {α : Type} (l : List α) (start delCount : Nat) (items : List α) : List α :=
  let s := min start l.length
  l.take s ++ items ++ l.drop (s + delCount)

/-- The guard at the top of `removeImageAt`: `index < 0 || index >=
images.value.length` returns immediately (indices are naturals here, so only
the upper bound matters).  It runs at call time, before the animation delay. -/
def removalGuard (c : Ctrl) (i : Nat) : Bool :=
  i < c.images.length

/-- Data captured by one `removeImageAt` invocation: the `index` argument and
`const fetchPage = nextFetchPage` read when the replacement fetch is issued. -/
structure RemovalTicket where
  rIdx : Nat
  rFetchPage : Nat
deriving DecidableEq, Repr

/-- Body of `removeImageAt` after the 260 ms animation delay, up to the
replacement `await fetch`: splice the placeholder over slot `index`, decrement
`total` (floored at zero: `if (total.value > 0) total.value -= 1`), and issue
`/search?query=…&page=nextFetchPage&per_page=1`, capturing `index` and
`fetchPage` for the resumption. -/
def removalSettle (c : Ctrl) (i : Nat) : Ctrl × RemovalTicket × PendingFetch :=
  ({ c with images := jsSplice c.images i 1 [Slot.placeholder]
            total := if 0 < c.total then c.total - 1 else c.total },
   ⟨i, c.nextFetchPage⟩,
   ⟨c.query, c.nextFetchPage, 1⟩)

/-- Outcome of the one-item replacement fetch: a first result item
(`data.results[0]`), an ok response without one, a non-ok HTTP status, or a
thrown network error. -/
inductive ReplacementOutcome where
  | ok (it : ResultItem) : ReplacementOutcome
  | emptyResult : ReplacementOutcome
  | httpError : ReplacementOutcome
  | networkError : ReplacementOutcome
deriving DecidableEq, Repr

/-- Resumption of `removeImageAt` when the replacement fetch settles, always
splicing at the CAPTURED `index`: on a non-empty success the item replaces the
slot and `nextFetchPage = fetchPage + 1`; on an empty result, HTTP error or
thrown error the slot is spliced out entirely. -/
def removalResolve (c : Ctrl) (t : RemovalTicket) (out : ReplacementOutcome) : Ctrl :=
  match out with
  | .ok it =>
      { c with images := jsSplice c.images t.rIdx 1 [Slot.item it]
               nextFetchPage := t.rFetchPage + 1 }
  | _ =>
      { c with images := jsSplice c.images t.rIdx 1 [] }

/-- A decoded image element, exposing `naturalWidth`/`naturalHeight`. -/
structure LoadedImage where
  naturalWidth : Nat
  naturalHeight : Nat
deriving DecidableEq, Repr

/-- An encoded blob as produced by `canvas.toBlob(…, 'image/jpeg', 0.85)`;
only its media type (`blob.type`) matters downstream. -/
structure Blob where
  mime : String
deriving DecidableEq, Repr

/-- Argument tuple of `ctx.drawImage(img, sx, sy, sw, sh, dx, dy, dw, dh)`. -/
structure DrawCall where
  sx : Nat
  sy : Nat
  sw : Nat
  sh : Nat
  dx : Nat
  dy : Nat
  dw : Nat
  dh : Nat
deriving DecidableEq, Repr

/-- External browser capabilities used by `downloadZip`: `loadImage` (an
`Image` element load, `none` on its error event) and the canvas draw/encode
step (`none` when `toBlob` yields no blob, making `blob.type` throw). -/
structure BrowserEnv where
  loadImage : String → Option LoadedImage
  encode : LoadedImage → DrawCall → Option Blob

/-- Fixed output square of the export canvas (`const size = 50`). -/
def outSize : Nat := 50

/-- The centred square crop computed in `downloadZip` for one image:
`side = Math.min(iw, ih)`, `sx = Math.floor((iw - side) / 2)`,
`sy = Math.floor((ih - side) / 2)`; the source square is resampled onto the
full `size × size` canvas.  Dimensions are naturals, so the flooring division
is `Nat` division. -/
def cropCall (img : LoadedImage) : DrawCall :=
  let side := min img.naturalWidth img.naturalHeight
  ⟨(img.naturalWidth - side) / 2, (img.naturalHeight - side) / 2,
   side, side, 0, 0, outSize, outSize⟩

/-- Per-item body of the export batch: load the slot's `download_url`, draw
the centre crop, encode.  A placeholder slot has no `download_url` (the load
of an undefined source errors), and any load or encode failure is caught into
`{ index, blob: null }`, i.e. `none`. -/
def transcodeSlot (env : BrowserEnv) (s : Slot) : Option Blob :=
  match s with
  | .placeholder => none
  | .item it =>
      match env.loadImage it.download_url with
      | none => none
      | some imageEl => env.encode imageEl (cropCall imageEl)

/-- JavaScript whitespace class `\s` (the characters relevant here). -/
def jsWs (c : Char) : Bool :=
  c = ' ' || c = '\t' || c = '\n' || c = '\r' || c = '\x0b' || c = '\x0c'

/-- Worker for `replace(/\s+/g, '_')`: each maximal whitespace run becomes a
single underscore; `prevWs` records whether the previous character was part
of a run already replaced. -/
def collapseWsGo : Bool → List Char → List Char
  | _, [] => []
  | prevWs, c :: rest =>
      if jsWs c then
        (if prevWs then [] else ['_']) ++ collapseWsGo true rest
      else
        c :: collapseWsGo false rest

/-- The query normalisation `props.searchQuery.replace(/\s+/g, '_')`. -/
def collapseWs (s : String) : String :=
  ⟨collapseWsGo false s.data⟩

/-- JavaScript `String.prototype.split('/')` on a character list. -/
def splitSlash : List Char → List (List Char)
  | [] => [[]]
  | c :: rest =>
      let r := splitSlash rest
      if c = '/' then [] :: r
      else
        match r with
        | [] => [[c]]
        | h :: t => (c :: h) :: t

/-- The entry extension `(r.mime && r.mime.split('/')[1]) || 'jpg'`: the part
after the first slash of the media type, defaulting to `jpg` when the mime is
empty, has no slash, or has nothing after the slash. -/
def extOf (mime : String) : String :=
  if mime = "" then "jpg"
  else
    match (splitSlash mime.data)[1]? with
    | none => "jpg"
    | some e => if e = [] then "jpg" else ⟨e⟩

/-- The archive folder (and file-stem) name
``images_${searchQuery.replace(/\s+/g, '_')}_page${page}``. -/
def folderName (q : String) (page : Nat) : String :=
  "images_" ++ collapseWs q ++ "_page" ++ toString page

/-- One archive entry name
``${folderName}/image_${page}_${index + 1}.${ext}`` (1-based index). -/
def entryName (folder : String) (page idx : Nat) (mime : String) : String :=
  folder ++ "/image_" ++ toString page ++ "_" ++ toString (idx + 1) ++ "." ++ extOf mime

/-- Batch size of the export loop (`const concurrency = 6`). -/
def concurrency : Nat := 6

/-- The export loop `for (let i = 0; i < length; i += 6)`: each iteration
processes the slice `[i, i+6)` concurrently (an all-settle join), appends the
successful results in index order, then moves to the next batch. -/
def batchLoop {α β : Type} (f : α → Option β) : List α → List β
  | [] => []
  | a :: rest =>
      List.filterMap f (a :: rest.take (concurrency - 1))
        ++ batchLoop f (rest.drop (concurrency - 1))
termination_by l => l.length
decreasing_by
  simp only [List.length_drop, List.length_cons]
  omega

/-- Processing of one indexed slot inside `downloadZip`: a successful
transcode contributes the named entry `(name, blob)`, a failed one is
dropped (`if (r.blob) zip.file(…)`). -/
def exportItem (env : BrowserEnv) (folder : String) (page : Nat)
    (p : Nat × Slot) : Option (String × Blob) :=
  match transcodeSlot env p.2 with
  | none => none
  | some b => some (entryName folder page p.1 b.mime, b)

/-- All archive entries produced by `downloadZip` over the current `images`,
in batch order. -/
def exportEntries (env : BrowserEnv) (q : String) (page : Nat)
    (slots : List Slot) : List (String × Blob) :=
  batchLoop (exportItem env (folderName q page) page) slots.enum

/-- The whole `downloadZip` handler: a no-op (`return`) when `images` is
empty, otherwise the archive `(file name, entries)` that is generated and
saved. -/
def downloadZip (env : BrowserEnv) (c : Ctrl) : Option (String × List (String × Blob)) :=
  if c.images.length = 0 then none
  else some (folderName c.query c.page ++ ".zip",
             exportEntries env c.query c.page c.images)

/-! ### Supporting lemmas -/

theorem jsSplice_set {α : Type} (l : List α) (i : Nat) (a : α) (h : i < l.length) :
    jsSplice l i 1 [a] = l.set i a := by
  simp [jsSplice, Nat.min_eq_left h.le, List.set_eq_take_cons_drop _ h]

theorem jsSplice_del {α : Type} (l : List α) (i : Nat) (h : i < l.length) :
    jsSplice l i 1 [] = l.take i ++ l.drop (i + 1) := by
  simp [jsSplice, Nat.min_eq_left h.le]

theorem batchLoop_eq_filterMap {α β : Type} (f : α → Option β) (l : List α) :
    batchLoop f l = l.filterMap f := by
  have H : ∀ (n : Nat) (l : List α), l.length ≤ n → batchLoop f l = l.filterMap f := by
    intro n
    induction n with
    | zero =>
      intro l hl
      match l with
      | [] => simp [batchLoop]
      | a :: rest => simp at hl
    | succ n ih =>
      intro l hl
      match l with
      | [] => simp [batchLoop]
      | a :: rest =>
        rw [batchLoop]
        rw [ih _ (by simp only [List.length_drop]; simp at hl; omega)]
        conv_rhs => rw [← List.take_append_drop (concurrency - 1) rest]
        rw [show a :: (rest.take (concurrency - 1) ++ rest.drop (concurrency - 1))
              = (a :: rest.take (concurrency - 1)) ++ rest.drop (concurrency - 1) from rfl]
        rw [List.filterMap_append]
  exact H l.length l le_rfl

theorem length_filterMap_eq {α β : Type} (f : α → Option β) (l : List α) :
    (l.filterMap f).length = l.countP (fun a => (f a).isSome) := by
  induction l with
  | nil => simp
  | cons a l ih =>
    cases h : f a <;> simp [List.filterMap_cons, h, List.countP_cons, ih]

theorem countP_enumFrom_snd {α : Type} (P : α → Bool) (n : Nat) (l : List α) :
    (List.enumFrom n l).countP (fun p => P p.2) = l.countP P := by
  induction l generalizing n with
  | nil => simp
  | cons a l ih => simp [List.enumFrom_cons, List.countP_cons, ih]

theorem exportItem_isSome (env : BrowserEnv) (folder : String) (page : Nat)
    (p : Nat × Slot) :
    (exportItem env folder page p).isSome = (transcodeSlot env p.2).isSome := by
  cases h : transcodeSlot env p.2 <;> simp [exportItem, h]

theorem exportEntries_eq_filterMap (env : BrowserEnv) (q : String) (page : Nat)
    (slots : List Slot) :
    exportEntries env q page slots
      = slots.enum.filterMap (exportItem env (folderName q page) page) := by
  simp [exportEntries, batchLoop_eq_filterMap]

theorem countP_transcode_split (env : BrowserEnv) (slots : List Slot) :
    slots.countP (fun s => (transcodeSlot env s).isSome)
      + slots.countP (fun s => s.isLive && (transcodeSlot env s).isNone)
      = slots.countP Slot.isLive := by
  induction slots with
  | nil => simp
  | cons s l ih =>
    cases s with
    | placeholder =>
        simp only [List.countP_cons,
          show transcodeSlot env Slot.placeholder = none from rfl,
          show Slot.isLive Slot.placeholder = false from rfl,
          Option.isSome_none, Option.isNone_none, Bool.false_and]
        simp
        omega
    | item it =>
        cases h : transcodeSlot env (.item it) with
        | none =>
            simp only [List.countP_cons, h,
              show Slot.isLive (Slot.item it) = true from rfl,
              Option.isSome_none, Option.isNone_none, Bool.true_and]
            simp
            omega
        | some b =>
            simp only [List.countP_cons, h,
              show Slot.isLive (Slot.item it) = true from rfl,
              Option.isSome_some, Option.isNone_some, Bool.true_and]
            simp
            omega

/-! ### Concrete fixtures for counterexamples and witnesses -/

def itemA : ResultItem := ⟨1, "urlA", none⟩

def itemB : ResultItem := ⟨2, "urlB", none⟩

def itemC : ResultItem := ⟨3, "urlC", none⟩

def itemD : ResultItem := ⟨4, "urlD", none⟩

def itemX : ResultItem := ⟨9, "urlX", none⟩

def itemY : ResultItem := ⟨10, "urlY", none⟩

/-- Idle controller on query `"cat"`, page 1, before the C1 race. -/
def raceStart : Ctrl := ⟨"cat", 1, [], 0, none, false, 2⟩

/-- First page-level fetch dispatched for `("cat", 1)`. -/
def raceAfterDispatch1 : Ctrl := (fetchDispatch raceStart).1

/-- The query then changes to `"dog"`, dispatching a second fetch. -/
def raceAfterDispatch2 : Ctrl := (paramsChange raceAfterDispatch1 "dog" 1).1

/-- The newer fetch (params `("dog", 1)`) resolves first. -/
def raceAfterNew : Ctrl :=
  fetchResolve raceAfterDispatch2 ⟨"dog", 1, perPage⟩ (.ok [itemB] 7)

/-- The stale fetch (params `("cat", 1)`) resolves last. -/
def raceAfterStale : Ctrl :=
  fetchResolve raceAfterNew ⟨"cat", 1, perPage⟩ (.ok [itemA] 9)

/-! ### C1 — stale page-level fetches -/

/-- C1, refuted.  Interleaving: fetch for `("cat", 1)` dispatched, query
changes to `"dog"` (dispatching a second fetch), the `"dog"` fetch resolves
first, the stale `"cat"` fetch resolves last.  The stale fetch's captured
parameters (`"cat"`) no longer match the controller's current query
(`"dog"`), yet its resolution mutates GridState: the final grid holds the
`"cat"` results, not those of the latest requested parameters. -/
theorem stale_fetch_overwrites_grid :
    (fetchDispatch raceStart).2 = some ⟨"cat", 1, 50⟩
    ∧ (paramsChange raceAfterDispatch1 "dog" 1).2 = some ⟨"dog", 1, 50⟩
    ∧ raceAfterStale.query = "dog"
    ∧ raceAfterNew.images = [Slot.item itemB]
    ∧ raceAfterStale.images = [Slot.item itemA]
    ∧ raceAfterStale.images ≠ raceAfterNew.images := by
  decide

/-- C1, amended: the resolution code of `fetchImages` performs no staleness
check — a successful page-level fetch always overwrites GridState with its
own results, whatever parameters it was dispatched with, so after two
resolutions the grid reflects whichever fetch resolved last. -/
theorem fetch_last_writer_wins (c : Ctrl) (f g : PendingFetch)
    (r1 r2 : List ResultItem) (t1 t2 : Nat) :
    (fetchResolve c f (.ok r1 t1)).images = r1.map Slot.item
    ∧ (fetchResolve (fetchResolve c f (.ok r1 t1)) g (.ok r2 t2)).images
        = r2.map Slot.item := by
  exact ⟨rfl, rfl⟩

/-! ### C2 — two overlapping removals -/

/-- Grid of four live items with the cursor at page 2, before the C2 race. -/
def pairStart : Ctrl :=
  ⟨"cat", 1, [.item itemA, .item itemB, .item itemC, .item itemD], 200, none, false, 2⟩

/-- First removal (index 0) reaches its placeholder phase. -/
def pairSettle1 : Ctrl × RemovalTicket × PendingFetch := removalSettle pairStart 0

/-- Second removal (index 2) reaches its placeholder phase. -/
def pairSettle2 : Ctrl × RemovalTicket × PendingFetch := removalSettle pairSettle1.1 2

/-- The first removal's replacement fetch fails, so its slot is spliced out
and the collection shrinks by one. -/
def pairAfterFail : Ctrl := removalResolve pairSettle2.1 pairSettle1.2.1 .httpError

/-- The second removal's replacement then succeeds with `itemX`, splicing at
its captured index 2. -/
def pairFinal : Ctrl := removalResolve pairAfterFail pairSettle2.2.1 (.ok itemX)

/-- C2, refuted.  Remove index 0 and index 2 of `[A, B, C, D]` before either
replacement resolves; the first replacement fails (shrinking the list), the
second succeeds.  The second splice targets its CAPTURED index 2, but after
the shrink its placeholder sits at position 1: the replacement lands on the
wrong slot, destroying the never-removed `itemD`, and its placeholder stays
stuck in the grid. -/
theorem removal_pair_misplaces :
    pairSettle2.1.images
      = [Slot.placeholder, Slot.item itemB, Slot.placeholder, Slot.item itemD]
    ∧ pairAfterFail.images
        = [Slot.item itemB, Slot.placeholder, Slot.item itemD]
    ∧ pairSettle2.2.1.rIdx = 2
    ∧ pairFinal.images = [Slot.item itemB, Slot.placeholder, Slot.item itemX]
    ∧ Slot.placeholder ∈ pairFinal.images
    ∧ Slot.item itemD ∉ pairFinal.images := by
  decide

/-- C2, amended: splices act at the index CAPTURED at dispatch, so correct
placement is only guaranteed while no interleaved resolution changes the
collection length.  When both replacement fetches succeed with non-empty
results (length-preserving splices throughout), the grid after both
resolutions — in either order — equals the original with slot `i` holding
`x` and slot `j` holding `y`; the length and all other slots are unchanged,
so no item is duplicated or misplaced. -/
theorem removal_pair_both_succeed (c : Ctrl) (i j : Nat) (x y : ResultItem)
    (hi : i < c.images.length) (hj : j < c.images.length) (hij : i ≠ j) :
    ((removalResolve
        (removalResolve (removalSettle ((removalSettle c i).1) j).1
          ((removalSettle c i).2.1) (.ok x))
        ((removalSettle ((removalSettle c i).1) j).2.1) (.ok y)).images
      = (c.images.set i (Slot.item x)).set j (Slot.item y))
    ∧ ((removalResolve
        (removalResolve (removalSettle ((removalSettle c i).1) j).1
          ((removalSettle ((removalSettle c i).1) j).2.1) (.ok y))
        ((removalSettle c i).2.1) (.ok x)).images
      = (c.images.set i (Slot.item x)).set j (Slot.item y))
    ∧ ((c.images.set i (Slot.item x)).set j (Slot.item y)).length = c.images.length
    ∧ (∀ k, k ≠ i → k ≠ j →
        ((c.images.set i (Slot.item x)).set j (Slot.item y))[k]? = c.images[k]?) := by
  have hj1 : j < ((c.images.set i Slot.placeholder)).length := by
    rw [List.length_set]; exact hj
  have hi2 : i < ((c.images.set i Slot.placeholder).set j Slot.placeholder).length := by
    rw [List.length_set, List.length_set]; exact hi
  have hj2 : j < ((c.images.set i Slot.placeholder).set j Slot.placeholder).length := by
    rw [List.length_set, List.length_set]; exact hj
  have hs1 : (removalSettle c i).1.images = c.images.set i Slot.placeholder :=
    jsSplice_set _ _ _ hi
  have hs2 : (removalSettle ((removalSettle c i).1) j).1.images
      = (c.images.set i Slot.placeholder).set j Slot.placeholder := by
    have e : (removalSettle ((removalSettle c i).1) j).1.images
        = jsSplice ((removalSettle c i).1.images) j 1 [Slot.placeholder] := rfl
    rw [e, hs1, jsSplice_set _ _ _ hj1]
  have key1 : (((c.images.set i Slot.placeholder).set j Slot.placeholder).set
        i (Slot.item x)).set j (Slot.item y)
      = (c.images.set i (Slot.item x)).set j (Slot.item y) := by
    rw [List.set_comm Slot.placeholder Slot.placeholder c.images hij, List.set_set,
        List.set_comm Slot.placeholder (Slot.item x) c.images (Ne.symm hij),
        List.set_set]
  have key2 : (((c.images.set i Slot.placeholder).set j Slot.placeholder).set
        j (Slot.item y)).set i (Slot.item x)
      = (c.images.set i (Slot.item x)).set j (Slot.item y) := by
    rw [List.set_set, List.set_comm Slot.placeholder (Slot.item y) c.images hij,
        List.set_set, List.set_comm (Slot.item y) (Slot.item x) c.images (Ne.symm hij)]
  have hjr : j < (((c.images.set i Slot.placeholder).set j Slot.placeholder).set
      i (Slot.item x)).length := by
    simp only [List.length_set]; exact hj
  have hir : i < (((c.images.set i Slot.placeholder).set j Slot.placeholder).set
      j (Slot.item y)).length := by
    simp only [List.length_set]; exact hi
  refine ⟨?_, ?_, ?_, ?_⟩
  · have e : (removalResolve
        (removalResolve (removalSettle ((removalSettle c i).1) j).1
          ((removalSettle c i).2.1) (.ok x))
        ((removalSettle ((removalSettle c i).1) j).2.1) (.ok y)).images
      = jsSplice (jsSplice ((removalSettle ((removalSettle c i).1) j).1.images)
          i 1 [Slot.item x]) j 1 [Slot.item y] := rfl
    rw [e, hs2, jsSplice_set _ _ _ hi2, jsSplice_set _ _ _ hjr, key1]
  · have e : (removalResolve
        (removalResolve (removalSettle ((removalSettle c i).1) j).1
          ((removalSettle ((removalSettle c i).1) j).2.1) (.ok y))
        ((removalSettle c i).2.1) (.ok x)).images
      = jsSplice (jsSplice ((removalSettle ((removalSettle c i).1) j).1.images)
          j 1 [Slot.item y]) i 1 [Slot.item x] := rfl
    rw [e, hs2, jsSplice_set _ _ _ hj2, jsSplice_set _ _ _ hir, key2]
  · rw [List.length_set, List.length_set]
  · intro k hki hkj
    rw [List.getElem?_set_ne (Ne.symm hkj), List.getElem?_set_ne (Ne.symm hki)]

/-- C2 witness: the amended statement instantiated on the four-item grid,
removing indices 0 and 2 with both replacements succeeding. -/
theorem removal_pair_both_succeed_witness :
    (0 : Nat) < pairStart.images.length
    ∧ (2 : Nat) < pairStart.images.length
    ∧ (removalResolve
        (removalResolve (removalSettle ((removalSettle pairStart 0).1) 2).1
          ((removalSettle pairStart 0).2.1) (.ok itemX))
        ((removalSettle ((removalSettle pairStart 0).1) 2).2.1) (.ok itemY)).images
      = (pairStart.images.set 0 (Slot.item itemX)).set 2 (Slot.item itemY) := by
  refine ⟨by decide, by decide, ?_⟩
  exact (removal_pair_both_succeed pairStart 0 2 itemX itemY (by decide) (by decide)
    (by decide)).1

/-! ### C3 — a single removal with no other in flight -/

theorem take_set_self {α : Type} (l : List α) (i : Nat) (a : α) :
    (l.set i a).take i = l.take i := by
  apply List.ext_getElem?
  intro k
  rw [List.getElem?_take, List.getElem?_take]
  split
  · next h => rw [List.getElem?_set_ne (by omega)]
  · rfl

/-- Two-item grid used to witness the single-removal theorem. -/
def singleStart : Ctrl := ⟨"cat", 1, [.item itemA, .item itemB], 40, none, false, 2⟩

/-- C3, confirmed.  For a removal at a valid index `i` with no other removal
in flight (so the grid holds no placeholder): after the animation delay the
slot becomes a Placeholder, the displayed total drops by one (never below
zero — `Nat` subtraction mirrors the `total.value > 0` guard), and exactly
one item is requested with `per_page = 1` at the OverflowCursor page.  On a
non-empty success the item lands in slot `i` and the cursor advances by one;
on an empty result, HTTP error or network error the slot is removed
outright, the collection shrinks by one, and no Placeholder remains. -/
theorem removal_single_ok (c : Ctrl) (i : Nat) (hi : i < c.images.length)
    (hnp : Slot.placeholder ∉ c.images) :
    ((removalSettle c i).1.images = c.images.set i Slot.placeholder)
    ∧ ((removalSettle c i).1.images.length = c.images.length)
    ∧ ((removalSettle c i).1.images[i]? = some Slot.placeholder)
    ∧ ((removalSettle c i).1.total = c.total - 1)
    ∧ ((removalSettle c i).2.2 = ⟨c.query, c.nextFetchPage, 1⟩)
    ∧ (∀ it : ResultItem,
        (removalResolve (removalSettle c i).1 (removalSettle c i).2.1 (.ok it)).images
          = c.images.set i (Slot.item it)
        ∧ (removalResolve (removalSettle c i).1 (removalSettle c i).2.1
            (.ok it)).nextFetchPage = c.nextFetchPage + 1)
    ∧ (∀ out ∈ ([.emptyResult, .httpError, .networkError] : List ReplacementOutcome),
        (removalResolve (removalSettle c i).1 (removalSettle c i).2.1 out).images
          = c.images.take i ++ c.images.drop (i + 1)
        ∧ (removalResolve (removalSettle c i).1 (removalSettle c i).2.1
            out).images.length = c.images.length - 1
        ∧ Slot.placeholder ∉
            (removalResolve (removalSettle c i).1 (removalSettle c i).2.1 out).images) := by
  have hs1 : (removalSettle c i).1.images = c.images.set i Slot.placeholder :=
    jsSplice_set _ _ _ hi
  have hi1 : i < ((removalSettle c i).1.images).length := by
    rw [hs1, List.length_set]; exact hi
  have hfailImages : ∀ out, (∀ it, out ≠ .ok it) →
      (removalResolve (removalSettle c i).1 (removalSettle c i).2.1 out).images
        = c.images.take i ++ c.images.drop (i + 1) := by
    intro out hout
    have e : (removalResolve (removalSettle c i).1 (removalSettle c i).2.1 out).images
        = jsSplice ((removalSettle c i).1.images) i 1 [] := by
      cases out with
      | ok it => exact absurd rfl (hout it)
      | emptyResult => rfl
      | httpError => rfl
      | networkError => rfl
    rw [e, jsSplice_del _ _ hi1, hs1, take_set_self,
        List.drop_set_of_lt _ _ (Nat.lt_succ_self i)]
  refine ⟨hs1, ?_, ?_, ?_, rfl, ?_, ?_⟩
  · rw [hs1, List.length_set]
  · rw [hs1]; exact List.getElem?_set_self hi
  · show (if 0 < c.total then c.total - 1 else c.total) = c.total - 1
    split <;> omega
  · intro it
    constructor
    · have e : (removalResolve (removalSettle c i).1 (removalSettle c i).2.1
          (.ok it)).images
          = jsSplice ((removalSettle c i).1.images) i 1 [Slot.item it] := rfl
      rw [e, jsSplice_set _ _ _ hi1, hs1, List.set_set]
    · rfl
  · intro out hout
    have hout' : ∀ it, out ≠ .ok it := by
      intro it
      simp only [List.mem_cons, List.not_mem_nil, or_false] at hout
      rcases hout with h | h | h <;> subst h <;> simp
    have himg := hfailImages out hout'
    refine ⟨himg, ?_, ?_⟩
    · rw [himg, List.length_append, List.length_take, List.length_drop]
      omega
    · rw [himg]
      intro hmem
      rcases List.mem_append.1 hmem with h | h
      · exact hnp (List.mem_of_mem_take h)
      · exact hnp (List.mem_of_mem_drop h)

/-- C3 witness: the single-removal theorem instantiated at index 0 of a
two-item grid, with its hypotheses checked concretely. -/
theorem removal_single_ok_witness :
    ((0 : Nat) < singleStart.images.length ∧ Slot.placeholder ∉ singleStart.images)
    ∧ (removalSettle singleStart 0).1.images
        = singleStart.images.set 0 Slot.placeholder
    ∧ (removalSettle singleStart 0).2.2 = ⟨"cat", 2, 1⟩ := by
  refine ⟨⟨by decide, by decide⟩, ?_, ?_⟩
  · exact (removal_single_ok singleStart 0 (by decide) (by decide)).1
  · exact (removal_single_ok singleStart 0 (by decide) (by decide)).2.2.2.2.1

/-! ### C4 — export survives per-item failures -/

/-- C4, confirmed.  Over any grid, the archive holds exactly `N - k` entries,
where `N` counts the live (non-placeholder) slots and `k` counts the live
slots whose fetch/decode/encode fails: each per-item failure is swallowed
into a dropped entry (placeholders contribute nothing — their load always
errors), so no individual failure aborts the pipeline; and `downloadZip` is
a no-op exactly on an empty collection. -/
theorem export_entry_count (env : BrowserEnv) (q : String) (page : Nat)
    (slots : List Slot) :
    ((exportEntries env q page slots).length
      = slots.countP Slot.isLive
          - slots.countP (fun s => s.isLive && (transcodeSlot env s).isNone))
    ∧ (slots.countP (fun s => s.isLive && (transcodeSlot env s).isNone)
        ≤ slots.countP Slot.isLive)
    ∧ (∀ c : Ctrl, downloadZip env c = none ↔ c.images = []) := by
  have h1 : (exportEntries env q page slots).length
      = slots.countP (fun s => (transcodeSlot env s).isSome) := by
    rw [exportEntries_eq_filterMap, length_filterMap_eq]
    have hc : slots.enum.countP
          (fun p => (exportItem env (folderName q page) page p).isSome)
        = slots.enum.countP (fun p => (transcodeSlot env p.2).isSome) :=
      List.countP_congr (fun p _ => by rw [exportItem_isSome])
    rw [hc, show slots.enum = List.enumFrom 0 slots from rfl]
    exact countP_enumFrom_snd (fun s => (transcodeSlot env s).isSome) 0 slots
  have h2 := countP_transcode_split env slots
  refine ⟨by omega, by omega, ?_⟩
  intro c
  by_cases h : c.images.length = 0
  · simp [downloadZip, h, List.length_eq_zero.1 h]
  · have : c.images ≠ [] := fun he => h (by rw [he]; rfl)
    simp [downloadZip, h, this]

/-! ### C5 — centred square crop -/

/-- C5, confirmed.  The export transcoder draws from the source with
`side = min(naturalWidth, naturalHeight)`, `sx = ⌊(naturalWidth - side)/2⌋`,
`sy = ⌊(naturalHeight - side)/2⌋` onto the fixed 50×50 canvas; in particular
an 800×600 source gives `side = 600`, `sx = 100`, `sy = 0`; and that draw
call is exactly the one issued by the pipeline for a loaded item. -/
theorem crop_center_ok :
    (∀ w h : Nat, cropCall ⟨w, h⟩
        = ⟨(w - min w h) / 2, (h - min w h) / 2, min w h, min w h, 0, 0, 50, 50⟩)
    ∧ cropCall ⟨800, 600⟩ = ⟨100, 0, 600, 600, 0, 0, 50, 50⟩
    ∧ (∀ (env : BrowserEnv) (it : ResultItem) (img : LoadedImage),
        env.loadImage it.download_url = some img →
        transcodeSlot env (Slot.item it) = env.encode img (cropCall img)) := by
  refine ⟨fun w h => rfl, by decide, ?_⟩
  intro env it img hload
  show (match env.loadImage it.download_url with
        | none => none
        | some imageEl => env.encode imageEl (cropCall imageEl)) = _
  rw [hload]

/-- Browser oracle used in witnesses: decodes `urlA` to an 800×600 image and
encodes every draw to a JPEG blob. -/
def sampleEnv : BrowserEnv :=
  ⟨fun u => if u = "urlA" then some ⟨800, 600⟩ else none,
   fun _ _ => some ⟨"image/jpeg"⟩⟩

/-- C5 witness: the pipeline-link conjunct applied to the concrete oracle and
item, its load hypothesis checked by evaluation. -/
theorem crop_center_ok_witness :
    sampleEnv.loadImage itemA.download_url = some ⟨800, 600⟩
    ∧ transcodeSlot sampleEnv (Slot.item itemA)
        = sampleEnv.encode ⟨800, 600⟩ (cropCall ⟨800, 600⟩) := by
  refine ⟨by decide, ?_⟩
  exact crop_center_ok.2.2 sampleEnv itemA ⟨800, 600⟩ (by decide)

/-! ### C6 — the OverflowCursor -/

/-- State whose cursor has advanced to 5 (e.g. after several removals),
before the page changes. -/
def cursorStart : Ctrl := ⟨"cat", 1, [Slot.item itemA], 100, none, false, 5⟩

/-- The page changes from 1 to 2, dispatching a page-level fetch. -/
def cursorAfterChange : Ctrl := (paramsChange cursorStart "cat" 2).1

/-- That fetch fails with an HTTP error. -/
def cursorAfterFail : Ctrl :=
  fetchResolve cursorAfterChange ⟨"cat", 2, perPage⟩ (.httpError 500)

/-- C6, refuted.  The cursor is reset only in the SUCCESS branch of
`fetchImages`: here the displayed page changes from 1 to 2, the fetch for
the new page fails, and `nextFetchPage` stays at its old value 5 instead of
being reset to `page + 1 = 3`. -/
theorem cursor_not_reset_on_failed_change :
    cursorStart.nextFetchPage = 5
    ∧ cursorAfterChange.page = 2
    ∧ cursorAfterChange.nextFetchPage = 5
    ∧ cursorAfterFail.page = 2
    ∧ cursorAfterFail.nextFetchPage = 5
    ∧ cursorAfterFail.nextFetchPage ≠ cursorAfterFail.page + 1 := by
  decide

/-- C6, amended: `nextFetchPage` is reset to the current `page + 1` exactly
when a page-level fetch SUCCEEDS (the reset sits in the success branch, so a
parameter change whose fetch fails, or an empty-query clear, leaves the
cursor untouched); it becomes its captured `fetchPage + 1` when a
replacement fetch succeeds with a non-empty result — an increase of exactly
one when no other replacement intervened — and every other operation leaves
it unchanged. -/
theorem cursor_update_rules (c : Ctrl) (f : PendingFetch) :
    (∀ results tot, (fetchResolve c f (.ok results tot)).nextFetchPage = c.page + 1)
    ∧ (∀ status, (fetchResolve c f (.httpError status)).nextFetchPage = c.nextFetchPage)
    ∧ (∀ msg, (fetchResolve c f (.providerError msg)).nextFetchPage = c.nextFetchPage)
    ∧ ((fetchDispatch c).1.nextFetchPage = c.nextFetchPage)
    ∧ (∀ i, (removalSettle c i).1.nextFetchPage = c.nextFetchPage
          ∧ (removalSettle c i).2.1.rFetchPage = c.nextFetchPage)
    ∧ (∀ t it, (removalResolve c t (.ok it)).nextFetchPage = t.rFetchPage + 1)
    ∧ (∀ t : RemovalTicket,
        (removalResolve c t .emptyResult).nextFetchPage = c.nextFetchPage
        ∧ (removalResolve c t .httpError).nextFetchPage = c.nextFetchPage
        ∧ (removalResolve c t .networkError).nextFetchPage = c.nextFetchPage)
    ∧ (∀ i it, (removalResolve (removalSettle c i).1 (removalSettle c i).2.1
          (.ok it)).nextFetchPage = c.nextFetchPage + 1) := by
  refine ⟨fun _ _ => rfl, fun _ => rfl, fun _ => rfl, ?_,
          fun _ => ⟨rfl, rfl⟩, fun _ _ => rfl, fun _ => ⟨rfl, rfl, rfl⟩, fun _ _ => rfl⟩
  unfold fetchDispatch
  split <;> rfl

/-! ### C7 — page navigation bounds and the forward guard -/

/-- Fifty distinct result items, a full page. -/
def items50 : List ResultItem := (List.range 50).map (fun n => ⟨n, "u", none⟩)

/-- Controller right after a successful fetch of the full page `items50`. -/
def navFull : Ctrl :=
  fetchResolve ⟨"cat", 1, [], 0, none, false, 2⟩ ⟨"cat", 1, perPage⟩ (.ok items50 1000)

/-- One removal whose replacement fetch fails shrinks the collection to 49. -/
def navShrunk : Ctrl :=
  removalResolve (removalSettle navFull 0).1 (removalSettle navFull 0).2.1 .httpError

/-- C7, refuted (second half).  The forward button is bound to
`images.length < perPage`, the CURRENT collection length, not to what the
page's fetch returned: after a fetch that returned exactly `perPage = 50`
items, one removal whose replacement fails leaves 49 slots, and forward
navigation is disabled even though the current page did not return fewer
than `perPage` items. -/
theorem forward_disabled_after_shrink :
    items50.length = perPage
    ∧ forwardDisabled navFull = false
    ∧ navShrunk.page = 1
    ∧ navShrunk.images.length = 49
    ∧ forwardDisabled navShrunk = true := by
  refine ⟨by decide, by decide, rfl, ?_, ?_⟩ <;> decide

/-- C7, amended: `nextPage`/`prevPage` are no-ops at the bounds (no
`update:page` event beyond `[1, 10]` is ever emitted, so a page inside the
range stays inside it), and forward navigation is disabled exactly when the
CURRENT collection holds fewer than `perPage = 50` slots — which, on the
state immediately after a successful page-level fetch, coincides with that
fetch returning fewer than `perPage` items. -/
theorem navigation_rules (c : Ctrl) :
    (10 ≤ c.page → nextPageEmit c = none)
    ∧ (c.page ≤ 1 → prevPageEmit c = none)
    ∧ (∀ p', nextPageEmit c = some p' → p' = c.page + 1 ∧ p' ≤ 10)
    ∧ (∀ p', prevPageEmit c = some p' → p' = c.page - 1 ∧ 1 ≤ p')
    ∧ (forwardDisabled c = true ↔ c.images.length < perPage)
    ∧ (∀ (f : PendingFetch) (results : List ResultItem) (tot : Nat),
        forwardDisabled (fetchResolve c f (.ok results tot)) = true
          ↔ results.length < perPage) := by
  refine ⟨?_, ?_, ?_, ?_, ?_, ?_⟩
  · intro h
    unfold nextPageEmit
    rw [if_neg (by omega)]
  · intro h
    unfold prevPageEmit
    rw [if_neg (by omega)]
  · intro p' h
    unfold nextPageEmit at h
    split at h
    · next hlt => cases h; omega
    · cases h
  · intro p' h
    unfold prevPageEmit at h
    split at h
    · next hlt => cases h; omega
    · cases h
  · unfold forwardDisabled
    exact decide_eq_true_iff
  · intro f results tot
    show (decide ((results.map Slot.item).length < perPage)) = true ↔ _
    rw [List.length_map]
    exact decide_eq_true_iff

/-- C7 witness: the navigation rules applied at the page-10 / page-1 /
shrunken-grid states. -/
theorem navigation_rules_witness :
    nextPageEmit ⟨"cat", 10, [], 0, none, false, 11⟩ = none
    ∧ prevPageEmit ⟨"cat", 1, [], 0, none, false, 2⟩ = none
    ∧ (forwardDisabled navShrunk = true ↔ navShrunk.images.length < perPage) := by
  refine ⟨?_, ?_, ?_⟩
  · exact (navigation_rules ⟨"cat", 10, [], 0, none, false, 11⟩).1 (by decide)
  · exact (navigation_rules ⟨"cat", 1, [], 0, none, false, 2⟩).2.1 (by decide)
  · exact (navigation_rules navShrunk).2.2.2.2.1

/-! ### C8 — empty query short-circuits -/

/-- C8, confirmed.  With an empty `searchQuery`, `fetchImages` empties the
image collection and returns before building a URL: no request is
dispatched. -/
theorem empty_query_clears (c : Ctrl) (h : c.query = "") :
    (fetchDispatch c).1.images = [] ∧ (fetchDispatch c).2 = none := by
  unfold fetchDispatch
  rw [if_pos h]
  exact ⟨rfl, rfl⟩

/-- Controller whose query is empty, with leftovers from an earlier search. -/
def emptyQueryCtrl : Ctrl := ⟨"", 1, [Slot.item itemA], 3, none, false, 2⟩

/-- C8 witness: the empty-query theorem evaluated on a concrete state that
still holds an old result. -/
theorem empty_query_clears_witness :
    emptyQueryCtrl.query = ""
    ∧ (fetchDispatch emptyQueryCtrl).1.images = []
    ∧ (fetchDispatch emptyQueryCtrl).2 = none := by
  refine ⟨by decide, ?_, ?_⟩
  · exact (empty_query_clears emptyQueryCtrl (by decide)).1
  · exact (empty_query_clears emptyQueryCtrl (by decide)).2

/-! ### C9 — archive and entry naming -/

/-- C9, confirmed.  On a non-empty collection the saved file is
`images_<query with whitespace runs collapsed to '_'>_page<N>.zip`, and every
archive entry is `<folder>/image_<page>_<index>.<ext>` with a 1-based index
and the extension taken from the encoded blob's media type (the part after
the slash, defaulting to `jpg` when the type is empty, slash-less, or ends
at the slash). -/
theorem export_naming_ok (env : BrowserEnv) (c : Ctrl) (hne : c.images ≠ []) :
    downloadZip env c
      = some ("images_" ++ collapseWs c.query ++ "_page" ++ toString c.page ++ ".zip",
              exportEntries env c.query c.page c.images)
    ∧ (∀ e ∈ exportEntries env c.query c.page c.images,
        ∃ (i : Nat) (s : Slot) (b : Blob),
          c.images[i]? = some s ∧ i < c.images.length
          ∧ transcodeSlot env s = some b
          ∧ e = (folderName c.query c.page ++ "/image_" ++ toString c.page ++ "_"
                  ++ toString (i + 1) ++ "." ++ extOf b.mime, b))
    ∧ extOf "" = "jpg" ∧ extOf "image/png" = "png" ∧ extOf "image/" = "jpg"
    ∧ collapseWs "big  cat" = "big_cat" := by
  refine ⟨?_, ?_, by decide, by decide, by decide, by decide⟩
  · unfold downloadZip
    rw [if_neg (fun h0 => hne (List.length_eq_zero.1 h0))]
    rfl
  · intro e he
    rw [exportEntries_eq_filterMap] at he
    obtain ⟨⟨i, s⟩, hmem, hf⟩ := List.mem_filterMap.1 he
    have hget : c.images[i]? = some s := List.mk_mem_enum_iff_getElem?.1 hmem
    have hlt : i < c.images.length := by
      by_contra hnot
      rw [List.getElem?_eq_none (by omega)] at hget
      cases hget
    cases hb : transcodeSlot env s with
    | none =>
        rw [show exportItem env (folderName c.query c.page) c.page (i, s) = none
              from by unfold exportItem; rw [hb]] at hf
        cases hf
    | some b =>
        have he2 : exportItem env (folderName c.query c.page) c.page (i, s)
            = some (entryName (folderName c.query c.page) c.page i b.mime, b) := by
          unfold exportItem; rw [hb]
        rw [he2] at hf
        refine ⟨i, s, b, hget, hlt, hb, ?_⟩
        injection hf with h
        rw [← h]
        rfl

/-- Controller used to witness the naming theorem: one live item, a
two-word query, page 2. -/
def exportCtrl : Ctrl := ⟨"big  cat", 2, [Slot.item itemA], 10, none, false, 3⟩

/-- C9 witness: the naming theorem evaluated on the concrete oracle and a
one-item grid with a multi-space query. -/
theorem export_naming_ok_witness :
    exportCtrl.images ≠ []
    ∧ downloadZip sampleEnv exportCtrl
        = some ("images_" ++ collapseWs exportCtrl.query ++ "_page"
                  ++ toString exportCtrl.page ++ ".zip",
                exportEntries sampleEnv exportCtrl.query exportCtrl.page
                  exportCtrl.images) := by
  exact ⟨by decide, (export_naming_ok sampleEnv exportCtrl (by decide)).1⟩

end ImageSearch
